import Mathlib

/-!
Verification development for the LinguaOrderTalk bot service.

The definitions below are a shallow embedding of the conversation state
machine and the nearby-store discovery engine of the repository:

* `app/main.py` — `process_language_text`, `handle_location_message`,
  `handle_sticker_message` (per-user conversation state machine);
* `app/services/store_service.py` — `find_and_sync_nearby_stores`
  (discovery, merging, ranking);
* `app/crud.py` — `get_stores_by_place_ids`, `add_stores`;
* `app/models.py` — the `User` and `Store` records.

External effects are made explicit: the two Google Places calls become
`ApiResult` values (a failed or non-2xx call is `ApiResult.failure`), the
database is a list of `Store` records, and LINE replies become `Msg` tags.
-/

namespace LinguaOrder

/-! ### Text normalization (main.py line 882: `text.strip().lower()`) -/

/-- The whitespace characters stripped by `str.strip()` (ASCII range):
space (32), tab (9), LF (10), VT (11), FF (12), CR (13). -/
def isPySpace (c : Char) : Bool :=
  c.toNat = 32 || (9 ≤ c.toNat && c.toNat ≤ 13)

/-- ASCII lower-casing of one character, as `str.lower()` acts on the
command alphabet: `A`–`Z` (codes 65–90) map 32 code points up. -/
def lowerChar (c : Char) : Char :=
  if 65 ≤ c.toNat ∧ c.toNat ≤ 90 then Char.ofNat (c.toNat + 32) else c

/-- `str.strip()` on a character list: drop whitespace from both ends. -/
def pyStripList (l : List Char) : List Char :=
  ((l.dropWhile isPySpace).reverse.dropWhile isPySpace).reverse

/-- `text.strip()`. -/
def pyStrip (s : String) : String :=
  ⟨pyStripList s.data⟩

/-- `text.lower()`. -/
def pyLower (s : String) : String :=
  ⟨s.data.map lowerChar⟩

/-- `text.strip().lower()`, the normalization applied by
`process_language_text` before any command matching. -/
def pyNormalize (s : String) : String :=
  pyLower (pyStrip s)

/-! ### Data model (models.py) -/

/-- The `users` row fields read and written by the state machine:
`state` is free text with default `"normal"`, `preferred_lang` the
LINE language code. -/
structure User where
  line_user_id : String
  state : String
  preferred_lang : String
deriving Repr, DecidableEq

/-- The `stores` row fields touched by discovery.  `place_id` is the
nullable, unique Google place identifier. -/
structure Store where
  store_name : String
  partner_level : Nat
  gps_lat : Option Int
  gps_lng : Option Int
  place_id : Option String
  main_photo_url : Option String
deriving Repr, DecidableEq

/-! ### Output actions

Each constructor tags one reply message produced by the handlers; the
rendering of a message (translation, quick replies, carousel columns) is
presentation-layer and not modelled. -/

inductive Msg where
  | userNotFound
  | operationCancelled
  | welcomeText
  | buttonsMenu
  | repromptLocation
  | languageSetSuccess (langCode : String)
  | languageNotRecognized
  | languageList
  | askLocation
  | askLanguage
  | orderHistory
  | noStoresFound
  | storeCarousel
deriving Repr, DecidableEq

/-- `get_main_menu_messages` (main.py lines 240-269): a welcome text
message followed by the three-button template. -/
def get_main_menu_messages : List Msg :=
  [Msg.welcomeText, Msg.buttonsMenu]

/-! ### The state machine core (main.py `process_language_text`, lines 881-983)

`lookup` stands for the startup-loaded `language_lookup_dict` and
`langList` for the global `LANGUAGE_LIST_STRING` (empty when loading the
JSON failed).  The returned pair is the committed user row (`none` when
the LINE id has no row) and the reply messages. -/

def process_language_text (lookup : String → Option String) (langList : String)
    (u : Option User) (text : String) : Option User × List Msg :=
  let user_text := pyNormalize text
  match u with
  | none => (none, [Msg.userNotFound])
  | some user =>
    if user_text = "0" ∧ (user.state = "awaiting_location" ∨ user.state = "awaiting_language") then
      (some { user with state := "normal" },
       Msg.operationCancelled :: get_main_menu_messages)
    else if user.state = "awaiting_location" then
      (some user, [Msg.repromptLocation])
    else if user.state = "awaiting_language" then
      match lookup user_text with
      | some langCode =>
        (some { user with preferred_lang := langCode, state := "normal" },
         [Msg.languageSetSuccess langCode])
      | none =>
        (some user,
         Msg.languageNotRecognized :: (if langList ≠ "" then [Msg.languageList] else []))
    else
      if user_text = "order now" then
        (some { user with state := "awaiting_location" }, [Msg.askLocation])
      else if user_text = "change language" then
        (some { user with state := "awaiting_language" },
         Msg.askLanguage :: (if langList ≠ "" then [Msg.languageList] else []))
      else if user_text = "order history" then
        (some user, [Msg.orderHistory])
      else
        (some user, get_main_menu_messages)

/-! ### The Google Places results

A `Place` carries the response fields the code reads: `id`,
`displayName.text`, `types`, the photo resource names, and
`location.latitude` / `location.longitude` (each may be absent).
An `ApiResult` is a completed search call: `failure` for a raised
exception, a non-2xx status or an unparsable body, `success` for a
decoded `places` array (missing key decodes to the empty array). -/

structure Place where
  id : Option String
  displayName : Option String
  types : List String
  photos : List String
  lat : Option Int
  lng : Option Int
deriving Repr, DecidableEq

inductive ApiResult where
  | failure
  | success (places : List Place)
deriving Repr, DecidableEq

/-- The places delivered by a search call: a failed call degrades to the
empty list (store_service.py lines 112-126). -/
def nearbyPlaces : ApiResult → List Place
  | ApiResult.failure => []
  | ApiResult.success ps => ps

/-- `text_result.get("places", [None])[0]` guarded by the surrounding
`try` (store_service.py lines 129-142): the head of the decoded array,
`none` when the call failed or the array is empty. -/
def landmarkOf : Option ApiResult → Option Place
  | none => none
  | some ApiResult.failure => none
  | some (ApiResult.success ps) => ps.head?

/-- Python truthiness of `place.get("id")`: present and non-empty
(store_service.py lines 163 and 176). -/
def truthyId (p : Place) : Option String :=
  match p.id with
  | none => none
  | some s => if s = "" then none else some s

/-! ### Repository operations (crud.py) -/

/-- `get_stores_by_place_ids` (crud.py lines 85-99): one batched
`SELECT ... WHERE place_id IN ids`; a NULL `place_id` never matches. -/
def get_stores_by_place_ids (db : List Store) (ids : List String) : List Store :=
  db.filter (fun st =>
    match st.place_id with
    | some p => p ∈ ids
    | none => false)

/-- A batch insert violates the `stores.place_id` unique constraint when
a new row repeats an identifier already stored, or two new rows repeat
each other (NULL identifiers never collide). -/
def hasBatchDup : List Store → Bool
  | [] => false
  | s :: rest =>
    (match s.place_id with
     | none => false
     | some p => rest.any (fun t => t.place_id = some p)) || hasBatchDup rest

def violatesPlaceIdUnique (db new : List Store) : Bool :=
  new.any (fun s =>
    match s.place_id with
    | none => false
    | some p => db.any (fun t => t.place_id = some p)) || hasBatchDup new

inductive DBErr where
  | integrityError
deriving Repr, DecidableEq

/-- `add_stores` (crud.py lines 102-109): `db.add_all(new_stores)` then
`db.commit()`, with no exception handling — a unique-constraint
violation surfaces to the caller as the commit's `IntegrityError`. -/
def add_stores (db : List Store) (new_stores : List Store) : Except DBErr (List Store) :=
  if violatesPlaceIdUnique db new_stores then Except.error DBErr.integrityError
  else Except.ok (db ++ new_stores)

/-! ### The discovery engine (store_service.py `find_and_sync_nearby_stores`) -/

/-- The landmark promotion test (store_service.py lines 151-154):
`"restaurant" in types or "food_store" in types`. -/
def isFoodPlace (p : Place) : Bool :=
  "restaurant" ∈ p.types || "food_store" ∈ p.types

/-- A fresh `Store` row built from a candidate (store_service.py lines
182-202): name defaults to `"N/A"`, `partner_level` 0, the first photo
resource is turned into a proxy URL. -/
def mkNewStore (p : Place) (pid : String) : Store :=
  { store_name := p.displayName.getD "N/A"
  , partner_level := 0
  , gps_lat := p.lat
  , gps_lng := p.lng
  , place_id := some pid
  , main_photo_url := p.photos.head?.map (fun nm => "/api/v1/places/photo/" ++ nm) }

/-- `existing_stores_map` (store_service.py line 167): a dict keyed by
`place_id` — with duplicate keys the later entry wins. -/
def storesMap (stores : List Store) (pid : String) : Option Store :=
  (stores.filter (fun st => st.place_id = some pid)).getLast?

/-- One iteration of the sync loop (store_service.py lines 174-207):
skip an id-less candidate, otherwise reuse the mapped store or build a
new one; the `Bool` marks membership in `new_stores_to_add`. -/
def syncEntry (emap : String → Option Store) (p : Place) : Option (Store × Bool) :=
  match truthyId p with
  | none => none
  | some pid =>
    match emap pid with
    | some st => some (st, false)
    | none => some (mkNewStore p pid, true)

/-- The sync loop over the first ten candidates: the synced list in
candidate order, and the subsequence of newly created rows. -/
def syncPlaces (emap : String → Option Store) (ps : List Place) :
    List Store × List Store :=
  let entries := ps.filterMap (syncEntry emap)
  (entries.map Prod.fst, (entries.filter (fun e => e.2)).map Prod.fst)

/-- Python's stable `sorted(key=partner_level, reverse=True)`: insertion
keeps an element before every later element of equal key. -/
def insertByLevel (x : Store) : List Store → List Store
  | [] => [x]
  | y :: ys =>
    if y.partner_level ≤ x.partner_level then x :: y :: ys
    else y :: insertByLevel x ys

def sortByLevelDesc : List Store → List Store
  | [] => []
  | x :: xs => insertByLevel x (sortByLevelDesc xs)

/-- The landmark merge (store_service.py lines 149-160): when the text
search produced a restaurant or food store, drop its duplicates from the
nearby list and prepend it. -/
def promoteLandmark (landmark_place : Option Place) (places : List Place) : List Place :=
  match landmark_place with
  | some lp =>
    if isFoodPlace lp then lp :: places.filter (fun p => p.id ≠ lp.id)
    else places
  | none => places

/-- `landmark_place_id` after lines 150-156: set only on promotion, and
still possibly `None` when the promoted landmark lacks an `id`. -/
def landmarkId (landmark_place : Option Place) : Option String :=
  match landmark_place with
  | some lp => if isFoodPlace lp then lp.id else none
  | none => none

/-- The final ordering (store_service.py lines 215-238): when
`landmark_place_id` is truthy, split the synced list on it (the loop's
last match becomes `landmark_store`), sort the rest by descending
partner level, and put the landmark first; otherwise sort everything. -/
def rankStores (landmark_place_id : Option String) (synced : List Store) : List Store :=
  match landmark_place_id with
  | some lpid =>
    if lpid = "" then sortByLevelDesc synced
    else
      match (synced.filter (fun st => st.place_id = some lpid)).getLast? with
      | some ls => ls :: sortByLevelDesc (synced.filter (fun st => st.place_id ≠ some lpid))
      | none => sortByLevelDesc (synced.filter (fun st => st.place_id ≠ some lpid))
  | none => sortByLevelDesc synced

/-- `find_and_sync_nearby_stores` (store_service.py lines 28-244) with
the two completed search calls as inputs.  Returns the final sorted list
and `new_stores_to_add`; the caller's database becomes
`db ++ new_stores_to_add` exactly when `add_stores` succeeds
(see `find_and_sync_run`).  Mirrors the source's order of steps: the
empty check of line 145 runs on the nearby results alone, before the
landmark promotion of lines 149-160. -/
def find_and_sync_nearby_stores (db : List Store) (nearby : ApiResult)
    (textSearch : Option ApiResult) : List Store × List Store :=
  let final_places0 := nearbyPlaces nearby
  let landmark_place := landmarkOf textSearch
  if final_places0 = [] then ([], [])
  else
    let final_places := promoteLandmark landmark_place final_places0
    let place_ids_from_api := final_places.filterMap truthyId
    let emap := storesMap (get_stores_by_place_ids db place_ids_from_api)
    let synced := syncPlaces emap (final_places.take 10)
    (rankStores (landmarkId landmark_place) synced.1, synced.2)

/-- The full service call including the batch insert of
store_service.py lines 210-213: on success the pair is the returned list
and the database after the commit; an insert failure propagates. -/
def find_and_sync_run (db : List Store) (nearby : ApiResult)
    (textSearch : Option ApiResult) : Except DBErr (List Store × List Store) :=
  let r := find_and_sync_nearby_stores db nearby textSearch
  if r.2 = [] then Except.ok (r.1, db)
  else
    match add_stores db r.2 with
    | Except.error e => Except.error e
    | Except.ok db2 => Except.ok (r.1, db2)

/-! ### Webhook handlers (main.py) -/

/-- What a handler call does at the LINE side, beyond the committed user
row: sends no reply (`silent`), sends the listed messages, or lets an
unhandled exception propagate out of the handler (`raised`). -/
inductive LocOutcome where
  | silent
  | sent (msgs : List Msg)
  | raised
deriving Repr, DecidableEq

/-- `handle_location_message` (main.py lines 487-703).  Faithful to the
source's order of steps: the unknown-user branch prepares a reply that
is never sent; in state `awaiting_location` the handler first commits
`user.state = "normal"` (lines 500-502) and only then runs the two
searches inline (its own copy of the discovery logic: landmark
promotion, lines 543-577, runs before the empty check of line 578, and
promotion requires only `"restaurant"`), looks each of the first ten
places up one by one and inserts missing ones one commit at a time
(lines 588-621) — `insertFails` says whether the database raises on such
an insert commit, and no `try` protects the loop; any other state falls
through to `process_language_text` with an empty text. -/
def handle_location_message (lookup : String → Option String) (langList : String)
    (u : Option User) (db : List Store) (nearby : ApiResult)
    (textSearch : Option ApiResult) (insertFails : Bool) :
    Option User × LocOutcome :=
  match u with
  | none => (none, LocOutcome.silent)
  | some user =>
    if user.state = "awaiting_location" then
      let user2 : User := { user with state := "normal" }
      let final_places0 := nearbyPlaces nearby
      let final_places :=
        match landmarkOf textSearch with
        | some lp =>
          if "restaurant" ∈ lp.types then
            lp :: final_places0.filter (fun p => p.id ≠ lp.id)
          else final_places0
        | none => final_places0
      if final_places = [] then (some user2, LocOutcome.sent [Msg.noStoresFound])
      else
        let needsInsert := (final_places.take 10).any (fun p =>
          ¬ db.any (fun st => st.place_id = p.id))
        if needsInsert ∧ insertFails then (some user2, LocOutcome.raised)
        else (some user2, LocOutcome.sent [Msg.storeCarousel])
    else
      let r := process_language_text lookup langList (some user) ""
      (r.1, LocOutcome.sent r.2)

/-- `handle_sticker_message` (main.py lines 468-484).  The
`if not user:` branch of lines 473-475 prepares an error reply, but line
477 then formats `user.state` unconditionally — with no user row this
dereferences `None` and the `AttributeError` propagates before any reply
is sent.  For a known user the sticker is funnelled into
`process_language_text` with an empty text. -/
def handle_sticker_message (lookup : String → Option String) (langList : String)
    (u : Option User) : Except String (Option User × List Msg) :=
  match u with
  | none =>
    Except.error "AttributeError: NoneType object has no attribute state"
  | some user =>
    Except.ok (process_language_text lookup langList (some user) "")

/-! ## Lemmas

### Normalization: `strip` and `lower` are compatible and idempotent -/

theorem char_ofNat_toNat_lower {n : Nat} (h1 : 97 ≤ n) (h2 : n ≤ 122) :
    (Char.ofNat n).toNat = n := by
  interval_cases n <;> decide

theorem lowerChar_toNat (c : Char) :
    (lowerChar c).toNat = if 65 ≤ c.toNat ∧ c.toNat ≤ 90 then c.toNat + 32 else c.toNat := by
  unfold lowerChar
  by_cases h : 65 ≤ c.toNat ∧ c.toNat ≤ 90
  · rw [if_pos h, if_pos h, char_ofNat_toNat_lower (by omega) (by omega)]
  · rw [if_neg h, if_neg h]

theorem lowerChar_eq_self (c : Char) (h : ¬ (65 ≤ c.toNat ∧ c.toNat ≤ 90)) :
    lowerChar c = c := by
  unfold lowerChar
  rw [if_neg h]

theorem lowerChar_idem (c : Char) : lowerChar (lowerChar c) = lowerChar c := by
  by_cases h : 65 ≤ c.toNat ∧ c.toNat ≤ 90
  · apply lowerChar_eq_self
    rw [lowerChar_toNat, if_pos h]
    omega
  · rw [lowerChar_eq_self c h]
    exact lowerChar_eq_self c h

theorem isPySpace_false_of_toNat (c : Char) (h : 33 ≤ c.toNat) : isPySpace c = false := by
  simp only [isPySpace, Bool.or_eq_false_iff, Bool.and_eq_false_iff,
    decide_eq_false_iff_not]
  omega

theorem isPySpace_lowerChar (c : Char) : isPySpace (lowerChar c) = isPySpace c := by
  by_cases h : 65 ≤ c.toNat ∧ c.toNat ≤ 90
  · have ht := lowerChar_toNat c
    rw [if_pos h] at ht
    rw [isPySpace_false_of_toNat _ (by omega), isPySpace_false_of_toNat _ (by omega)]
  · rw [lowerChar_eq_self c h]

theorem dropWhile_dropWhile (p : Char → Bool) (l : List Char) :
    (l.dropWhile p).dropWhile p = l.dropWhile p := by
  induction l with
  | nil => rfl
  | cons a l ih =>
    rw [List.dropWhile_cons]
    by_cases h : p a = true
    · rw [if_pos h]
      exact ih
    · rw [if_neg h, List.dropWhile_cons, if_neg h]

theorem dropWhile_eq_self_of_head (p : Char → Bool) (l : List Char)
    (h : ∀ a, l.head? = some a → p a = false) : l.dropWhile p = l := by
  cases l with
  | nil => rfl
  | cons a l =>
    rw [List.dropWhile_cons, if_neg (by simp [h a rfl])]

theorem head?_dropWhile_false (p : Char → Bool) (l : List Char) (a : Char)
    (h : (l.dropWhile p).head? = some a) : p a = false := by
  induction l with
  | nil => simp at h
  | cons b l ih =>
    rw [List.dropWhile_cons] at h
    by_cases hb : p b = true
    · rw [if_pos hb] at h
      exact ih h
    · rw [if_neg hb] at h
      simp only [List.head?_cons, Option.some.injEq] at h
      subst h
      simpa using hb

theorem getLast?_dropWhile (p : Char → Bool) (l : List Char)
    (h : l.dropWhile p ≠ []) : (l.dropWhile p).getLast? = l.getLast? := by
  induction l with
  | nil => simp at h
  | cons a l ih =>
    rw [List.dropWhile_cons]
    by_cases ha : p a = true
    · rw [List.dropWhile_cons, if_pos ha] at h
      rw [if_pos ha, ih h]
      cases l with
      | nil => simp at h
      | cons b l2 => rw [List.getLast?_cons_cons]
    · rw [if_neg ha]

theorem pyStripList_head_false (l : List Char) (a : Char)
    (h : (pyStripList l).head? = some a) : isPySpace a = false := by
  unfold pyStripList at h
  rw [List.head?_reverse] at h
  have hne : (l.dropWhile isPySpace).reverse.dropWhile isPySpace ≠ [] := by
    intro hv
    rw [hv] at h
    simp at h
  rw [getLast?_dropWhile _ _ hne, List.getLast?_reverse] at h
  exact head?_dropWhile_false _ _ _ h

theorem pyStripList_idem (l : List Char) :
    pyStripList (pyStripList l) = pyStripList l := by
  have hfx : (pyStripList l).dropWhile isPySpace = pyStripList l :=
    dropWhile_eq_self_of_head _ _ (fun a ha => pyStripList_head_false l a ha)
  have hrev : (pyStripList l).reverse = (l.dropWhile isPySpace).reverse.dropWhile isPySpace :=
    List.reverse_reverse _
  calc pyStripList (pyStripList l)
      = (((pyStripList l).dropWhile isPySpace).reverse.dropWhile isPySpace).reverse := rfl
    _ = ((pyStripList l).reverse.dropWhile isPySpace).reverse := by rw [hfx]
    _ = (((l.dropWhile isPySpace).reverse.dropWhile isPySpace).dropWhile isPySpace).reverse := by
          rw [hrev]
    _ = ((l.dropWhile isPySpace).reverse.dropWhile isPySpace).reverse := by
          rw [dropWhile_dropWhile]
    _ = pyStripList l := rfl

theorem dropWhile_map_lower (l : List Char) :
    (l.map lowerChar).dropWhile isPySpace = (l.dropWhile isPySpace).map lowerChar := by
  induction l with
  | nil => rfl
  | cons a l ih =>
    rw [List.map_cons, List.dropWhile_cons, List.dropWhile_cons, isPySpace_lowerChar]
    by_cases h : isPySpace a = true
    · rw [if_pos h, if_pos h, ih]
    · rw [if_neg h, if_neg h, List.map_cons]

theorem pyStripList_map_lower (l : List Char) :
    pyStripList (l.map lowerChar) = (pyStripList l).map lowerChar := by
  unfold pyStripList
  rw [dropWhile_map_lower, ← List.map_reverse, dropWhile_map_lower, ← List.map_reverse]

theorem map_lower_idem (l : List Char) :
    (l.map lowerChar).map lowerChar = l.map lowerChar := by
  rw [List.map_map]
  exact List.map_congr_left (fun a _ => lowerChar_idem a)

/-- Normalization is idempotent: `strip().lower()` of an already
normalized text is itself — lower-casing neither creates edge
whitespace nor new upper-case letters. -/
theorem pyNormalize_idem (s : String) : pyNormalize (pyNormalize s) = pyNormalize s := by
  show String.mk ((pyStripList ((pyStripList s.data).map lowerChar)).map lowerChar)
      = String.mk ((pyStripList s.data).map lowerChar)
  rw [pyStripList_map_lower, pyStripList_idem, map_lower_idem]

/-! ### The partner-level sort: a stable descending sort -/

theorem mem_insertByLevel {x y : Store} {l : List Store} :
    y ∈ insertByLevel x l ↔ y = x ∨ y ∈ l := by
  induction l with
  | nil => simp [insertByLevel]
  | cons a l ih =>
    unfold insertByLevel
    by_cases h : a.partner_level ≤ x.partner_level
    · rw [if_pos h]
      simp [List.mem_cons]
    · rw [if_neg h]
      simp only [List.mem_cons, ih]
      tauto

theorem mem_sortByLevelDesc {y : Store} {l : List Store} :
    y ∈ sortByLevelDesc l ↔ y ∈ l := by
  induction l with
  | nil => simp [sortByLevelDesc]
  | cons a l ih =>
    unfold sortByLevelDesc
    rw [mem_insertByLevel, ih, List.mem_cons]

theorem pairwise_insertByLevel {x : Store} {l : List Store}
    (h : l.Pairwise (fun a b => b.partner_level ≤ a.partner_level)) :
    (insertByLevel x l).Pairwise (fun a b => b.partner_level ≤ a.partner_level) := by
  induction l with
  | nil => simp [insertByLevel]
  | cons a l ih =>
    rw [List.pairwise_cons] at h
    unfold insertByLevel
    by_cases hx : a.partner_level ≤ x.partner_level
    · rw [if_pos hx]
      rw [List.pairwise_cons]
      constructor
      · intro z hz
        rcases List.mem_cons.1 hz with hz | hz
        · subst hz
          exact hx
        · exact le_trans (h.1 z hz) hx
      · rw [List.pairwise_cons]
        exact h
    · rw [if_neg hx]
      rw [List.pairwise_cons]
      constructor
      · intro z hz
        rcases mem_insertByLevel.1 hz with hz | hz
        · subst hz
          omega
        · exact h.1 z hz
      · exact ih h.2

/-- The output of the partner-level sort is ordered by descending
`partner_level`. -/
theorem sortByLevelDesc_sorted (l : List Store) :
    (sortByLevelDesc l).Pairwise (fun a b => b.partner_level ≤ a.partner_level) := by
  induction l with
  | nil => simp [sortByLevelDesc]
  | cons a l ih =>
    exact pairwise_insertByLevel ih

theorem filter_levelEq_insertByLevel (v : Nat) (x : Store) (l : List Store) :
    (insertByLevel x l).filter (fun s => s.partner_level = v)
      = (x :: l).filter (fun s => s.partner_level = v) := by
  induction l with
  | nil => rfl
  | cons y ys ih =>
    unfold insertByLevel
    by_cases h : y.partner_level ≤ x.partner_level
    · rw [if_pos h]
    · rw [if_neg h]
      by_cases hy : y.partner_level = v
      · have hx : ¬ x.partner_level = v := by omega
        simp only [List.filter_cons, ih]
        simp [hy, hx]
      · simp only [List.filter_cons, ih]
        simp [hy]

/-- Stability of the partner-level sort: within each partner level the
original order is kept verbatim. -/
theorem sortByLevelDesc_stable (l : List Store) (v : Nat) :
    (sortByLevelDesc l).filter (fun s => s.partner_level = v)
      = l.filter (fun s => s.partner_level = v) := by
  induction l with
  | nil => rfl
  | cons a l ih =>
    unfold sortByLevelDesc
    rw [filter_levelEq_insertByLevel, List.filter_cons, List.filter_cons, ih]

/-! ### Structure of the sync loop and the ranked output -/

theorem getLast?_mem_of {α : Type} {l : List α} {a : α} (h : l.getLast? = some a) :
    a ∈ l := by
  rw [← List.head?_reverse] at h
  exact (List.mem_reverse).1 (List.mem_of_mem_head? h)

theorem truthyId_spec {p : Place} {pid : String} (h : truthyId p = some pid) :
    p.id = some pid ∧ pid ≠ "" := by
  unfold truthyId at h
  cases hid : p.id with
  | none => simp [hid] at h
  | some s =>
    simp only [hid] at h
    by_cases hs : s = ""
    · simp [hs] at h
    · rw [if_neg hs] at h
      simp only [Option.some.injEq] at h
      subst h
      exact ⟨rfl, hs⟩

theorem storesMap_spec {stores : List Store} {pid : String} {st : Store}
    (h : storesMap stores pid = some st) : st.place_id = some pid ∧ st ∈ stores := by
  unfold storesMap at h
  have hmem : st ∈ stores.filter (fun s => s.place_id = some pid) := getLast?_mem_of h
  have h2 := List.mem_filter.1 hmem
  refine ⟨?_, h2.1⟩
  simpa using h2.2

theorem syncEntry_spec {emap : String → Option Store} {p : Place} {st : Store} {b : Bool}
    (h : syncEntry emap p = some (st, b)) :
    ∃ pid, truthyId p = some pid ∧
      ((b = false ∧ emap pid = some st) ∨
       (b = true ∧ emap pid = none ∧ st = mkNewStore p pid)) := by
  unfold syncEntry at h
  cases hid : truthyId p with
  | none => simp [hid] at h
  | some pid =>
    simp only [hid] at h
    cases hm : emap pid with
    | some st2 =>
      simp only [hm, Option.some.injEq, Prod.mk.injEq] at h
      exact ⟨pid, rfl, Or.inl ⟨h.2.symm, by rw [hm, h.1]⟩⟩
    | none =>
      simp only [hm, Option.some.injEq, Prod.mk.injEq] at h
      exact ⟨pid, rfl, Or.inr ⟨h.2.symm, hm, h.1.symm⟩⟩

theorem syncEntry_place_id {ex : List Store} {p : Place} {st : Store} {b : Bool}
    (h : syncEntry (storesMap ex) p = some (st, b)) :
    ∃ pid, truthyId p = some pid ∧ st.place_id = some pid := by
  obtain ⟨pid, hid, hcase⟩ := syncEntry_spec h
  refine ⟨pid, hid, ?_⟩
  rcases hcase with ⟨_, hm⟩ | ⟨_, _, hst⟩
  · exact (storesMap_spec hm).1
  · rw [hst]
    rfl

theorem mem_syncPlaces_fst {emap : String → Option Store} {ps : List Place} {st : Store}
    (h : st ∈ (syncPlaces emap ps).1) :
    ∃ p b, p ∈ ps ∧ syncEntry emap p = some (st, b) := by
  unfold syncPlaces at h
  simp only [List.mem_map] at h
  obtain ⟨e, he, hfst⟩ := h
  rw [List.mem_filterMap] at he
  obtain ⟨p, hp, he2⟩ := he
  refine ⟨p, e.2, hp, ?_⟩
  rw [he2, ← hfst]

theorem mem_syncPlaces_snd {emap : String → Option Store} {ps : List Place} {st : Store}
    (h : st ∈ (syncPlaces emap ps).2) :
    ∃ p, p ∈ ps ∧ syncEntry emap p = some (st, true) := by
  unfold syncPlaces at h
  simp only [List.mem_map] at h
  obtain ⟨e, he, hfst⟩ := h
  rw [List.mem_filter] at he
  obtain ⟨he1, he2⟩ := he
  rw [List.mem_filterMap] at he1
  obtain ⟨p, hp, hp2⟩ := he1
  refine ⟨p, hp, ?_⟩
  rw [hp2, ← hfst, ← he2]

theorem syncPlaces_fst_cons {emap : String → Option Store} {p : Place} {ps : List Place}
    {e : Store × Bool} (h : syncEntry emap p = some e) :
    (syncPlaces emap (p :: ps)).1 = e.1 :: (syncPlaces emap ps).1 := by
  unfold syncPlaces
  simp [List.filterMap_cons, h]

theorem rankStores_mem {lid : Option String} {synced : List Store} {st : Store}
    (h : st ∈ rankStores lid synced) : st ∈ synced := by
  cases lid with
  | none => exact mem_sortByLevelDesc.1 h
  | some lpid =>
    simp only [rankStores] at h
    by_cases he : lpid = ""
    · rw [if_pos he] at h
      exact mem_sortByLevelDesc.1 h
    · rw [if_neg he] at h
      cases hls : (synced.filter (fun s => s.place_id = some lpid)).getLast? with
      | some ls =>
        rw [hls] at h
        rcases List.mem_cons.1 h with h | h
        · subst h
          exact List.mem_of_mem_filter (getLast?_mem_of hls)
        · exact List.mem_of_mem_filter (mem_sortByLevelDesc.1 h)
      | none =>
        rw [hls] at h
        exact List.mem_of_mem_filter (mem_sortByLevelDesc.1 h)

theorem rankStores_split {i : String} (hi : i ≠ "") {st0 : Store} {tl : List Store}
    (h0 : st0.place_id = some i) (htl : ∀ st ∈ tl, st.place_id ≠ some i) :
    rankStores (some i) (st0 :: tl) = st0 :: sortByLevelDesc tl := by
  simp only [rankStores]
  rw [if_neg hi]
  have hfilter1 : (st0 :: tl).filter (fun st => st.place_id = some i) = [st0] := by
    rw [List.filter_cons, if_pos (by simp [h0])]
    rw [List.filter_eq_nil_iff.2 (fun a ha => by simpa using htl a ha)]
  have hfilter2 : (st0 :: tl).filter (fun st => st.place_id ≠ some i) = tl := by
    rw [List.filter_cons, if_neg (by simp [h0])]
    exact List.filter_eq_self.2 (fun a ha => by simpa using htl a ha)
  rw [hfilter1, hfilter2]
  rfl

/-! ### Shape of `find_and_sync_nearby_stores` by case on the nearby result -/

theorem find_and_sync_failure {db : List Store} {text : Option ApiResult} :
    find_and_sync_nearby_stores db ApiResult.failure text = ([], []) := rfl

theorem find_and_sync_success_nil {db : List Store} {text : Option ApiResult} :
    find_and_sync_nearby_stores db (ApiResult.success []) text = ([], []) := rfl

theorem find_and_sync_success_ne_nil {db : List Store} {ps : List Place}
    {text : Option ApiResult} (hps : ps ≠ []) :
    find_and_sync_nearby_stores db (ApiResult.success ps) text =
      (rankStores (landmarkId (landmarkOf text))
         (syncPlaces (storesMap (get_stores_by_place_ids db
            ((promoteLandmark (landmarkOf text) ps).filterMap truthyId)))
            ((promoteLandmark (landmarkOf text) ps).take 10)).1,
       (syncPlaces (storesMap (get_stores_by_place_ids db
            ((promoteLandmark (landmarkOf text) ps).filterMap truthyId)))
            ((promoteLandmark (landmarkOf text) ps).take 10)).2) := by
  simp only [find_and_sync_nearby_stores, nearbyPlaces]
  rw [if_neg hps]

/-! ## Claims -/

/-! ### C1 -/

/-- Failing input for C1: the nearby search fails while the text search
succeeds with a restaurant-typed, id-bearing landmark candidate. -/
def lmC1 : Place :=
  ⟨some "pid-landmark-1", some "Lakeside Diner", ["restaurant"], [], none, none⟩

/-- C1: if the nearby search fails but the text search succeeds with a
restaurant landmark, the claim wants the landmark kept; the code instead
returns the empty list — the early return of store_service.py line 145
fires on the empty nearby set before the landmark promotion of lines
149-160 can run, even though the promotion premise holds. -/
theorem c1_nearby_failure_drops_landmark :
    "restaurant" ∈ lmC1.types
      ∧ find_and_sync_nearby_stores [] ApiResult.failure
          (some (ApiResult.success [lmC1])) = ([], []) :=
  ⟨by decide, by decide⟩

/-! ### C7 -/

/-- C7: the state machine is claimed never to raise, also for unknown
users; but `handle_sticker_message` (main.py line 477) formats
`user.state` unconditionally, so a sticker from a LINE id with no
`users` row raises `AttributeError` before any reply is sent. -/
theorem c7_sticker_unknown_user_raises :
    handle_sticker_message (fun _ => none) "" none =
      Except.error "AttributeError: NoneType object has no attribute state" := rfl

/-! ### C8 -/

/-- C8: a user in `awaiting_language` who sends the cancel token `"0"`
ends in state `normal` with the preferred language untouched, and the
reply leads with the cancellation acknowledgment (followed by the main
menu). -/
theorem c8_cancel_awaiting_language (lookup : String → Option String)
    (langList : String) (u : User) (h : u.state = "awaiting_language") :
    process_language_text lookup langList (some u) "0"
        = (some { u with state := "normal" },
           [Msg.operationCancelled, Msg.welcomeText, Msg.buttonsMenu])
      ∧ ({ u with state := "normal" } : User).preferred_lang = u.preferred_lang := by
  constructor
  · have hnorm : pyNormalize "0" = "0" := by decide
    simp only [process_language_text, hnorm]
    rw [if_pos ⟨trivial, Or.inr h⟩]
    rfl
  · rfl

def uC8 : User := ⟨"U-c8", "awaiting_language", "ja"⟩

theorem c8_cancel_awaiting_language_witness :
    uC8.state = "awaiting_language"
      ∧ (process_language_text (fun _ => none) "" (some uC8) "0"
            = (some { uC8 with state := "normal" },
               [Msg.operationCancelled, Msg.welcomeText, Msg.buttonsMenu])
          ∧ ({ uC8 with state := "normal" } : User).preferred_lang = uC8.preferred_lang) :=
  ⟨rfl, c8_cancel_awaiting_language (fun _ => none) "" uC8 rfl⟩

/-! ### C10 -/

/-- C10: command recognition is invariant under leading/trailing
whitespace and letter case — processing any text gives the same
committed user row and reply messages as processing its
`strip().lower()` normal form, because main.py line 882 normalizes
first and normalization is idempotent. -/
theorem c10_normalization_invariance (lookup : String → Option String)
    (langList : String) (u : Option User) (t : String) :
    process_language_text lookup langList u t
      = process_language_text lookup langList u (pyLower (pyStrip t)) := by
  have h : pyNormalize (pyLower (pyStrip t)) = pyNormalize t := pyNormalize_idem t
  simp only [process_language_text]
  rw [h]

/-! ### C5 -/

def stA5 : Store := ⟨"Cafe A", 0, none, none, some "pl-a", none⟩
def stB5 : Store := ⟨"Cafe B", 2, none, none, some "pl-b", none⟩
def stC5 : Store := ⟨"Cafe C", 0, none, none, some "pl-c", none⟩
def stD5 : Store := ⟨"Cafe D", 1, none, none, some "pl-d", none⟩
def plA5 : Place := ⟨some "pl-a", some "Cafe A", [], [], none, none⟩
def plB5 : Place := ⟨some "pl-b", some "Cafe B", [], [], none, none⟩
def plC5 : Place := ⟨some "pl-c", some "Cafe C", [], [], none, none⟩
def plD5 : Place := ⟨some "pl-d", some "Cafe D", [], [], none, none⟩

/-- C5: the non-landmark candidates are ordered by a stable descending
partner-level sort: the required [0,2,0,1] ↦ B,D,A,C instance holds on
the full discovery call, the sort's output is descending in
`partner_level`, and within each level the input order is kept. -/
theorem c5_stable_partner_level_sort :
    (find_and_sync_nearby_stores [stA5, stB5, stC5, stD5]
        (ApiResult.success [plA5, plB5, plC5, plD5]) none).1
        = [stB5, stD5, stA5, stC5]
      ∧ (∀ l : List Store,
          (sortByLevelDesc l).Pairwise (fun a b => b.partner_level ≤ a.partner_level))
      ∧ (∀ (l : List Store) (v : Nat),
          (sortByLevelDesc l).filter (fun s => s.partner_level = v)
            = l.filter (fun s => s.partner_level = v)) :=
  ⟨by decide, sortByLevelDesc_sorted, sortByLevelDesc_stable⟩

/-! ### C3 -/

def stC3a : Store := ⟨"Old Shop", 1, none, none, some "pl-dup", none⟩
def stC3b : Store := ⟨"New Shop", 0, none, none, some "pl-dup", none⟩

/-- C3 counterexample: inserting a batch whose `place_id` repeats a
stored one makes `add_stores` surface the integrity error to its caller
— nothing catches it and nothing re-reads the existing row. -/
theorem c3_counterexample :
    add_stores [stC3a] [stC3b] = Except.error DBErr.integrityError := rfl

/-- C3 amended: `add_stores` is a bare `add_all` + `commit`; whenever a
new row repeats a stored external identifier, the uniqueness violation
is propagated to the caller as the commit's integrity error — the
existing record is not re-read and the discovery request fails. -/
theorem c3_amended_insert_error_propagates (db new : List Store) (s t : Store)
    (pid : String) (hs : s ∈ new) (ht : t ∈ db)
    (hsp : s.place_id = some pid) (htp : t.place_id = some pid) :
    add_stores db new = Except.error DBErr.integrityError := by
  have h2 : violatesPlaceIdUnique db new = true := by
    unfold violatesPlaceIdUnique
    rw [Bool.or_eq_true]
    left
    apply List.any_eq_true.2
    refine ⟨s, hs, ?_⟩
    simp only [hsp]
    exact List.any_eq_true.2 ⟨t, ht, by simpa using htp⟩
  unfold add_stores
  rw [if_pos h2]

def dbC3w : List Store := [⟨"Shop W1", 2, none, none, some "pl-w1", none⟩, stC3a]

theorem c3_amended_witness :
    add_stores dbC3w [stC3b] = Except.error DBErr.integrityError :=
  c3_amended_insert_error_propagates dbC3w [stC3b] stC3b stC3a "pl-dup"
    (by decide) (by decide) rfl rfl

/-! ### C2 -/

def uC2 : User := ⟨"U-c2", "awaiting_location", "en"⟩
def plC2 : Place := ⟨some "pl-c2", some "Shop C2", [], [], none, none⟩

/-- C2 counterexample: a coordinate in `awaiting_location` whose store
insert fails.  The committed user state is `normal` — not the original
`awaiting_location` the claim requires — and the outcome is a raised
exception, not a generic failure message. -/
theorem c2_counterexample :
    handle_location_message (fun _ => none) "" (some uC2) []
        (ApiResult.success [plC2]) none true
        = (some { uC2 with state := "normal" }, LocOutcome.raised)
      ∧ ({ uC2 with state := "normal" } : User) ≠ uC2 :=
  ⟨by decide, by decide⟩

/-- C2 amended: on a coordinate received in `awaiting_location` the
handler first commits `user.state = "normal"` (main.py lines 500-502),
before any discovery or insert; whatever happens afterwards — including
a failing insert, which raises without any user-facing message — the
committed state is `normal`, already advanced past the failed
discovery. -/
theorem c2_amended_state_advances_before_discovery
    (lookup : String → Option String) (langList : String) (u : User)
    (db : List Store) (nearby : ApiResult) (text : Option ApiResult)
    (insertFails : Bool) (h : u.state = "awaiting_location") :
    (handle_location_message lookup langList (some u) db nearby text insertFails).1
      = some { u with state := "normal" } := by
  simp only [handle_location_message]
  rw [if_pos h]
  split
  · rfl
  · split
    · rfl
    · rfl

theorem c2_amended_witness :
    uC2.state = "awaiting_location"
      ∧ (handle_location_message (fun _ => none) "" (some uC2) []
            ApiResult.failure none false).1 = some { uC2 with state := "normal" } :=
  ⟨rfl, c2_amended_state_advances_before_discovery (fun _ => none) "" uC2 []
    ApiResult.failure none false rfl⟩

/-! ### C9 -/

/-- C9: every store in the ranked output and every store in the insert
batch carries a non-empty external identifier — id-less candidates are
skipped by the sync loop (store_service.py lines 163 and 176-177) and
never persisted nor returned. -/
theorem c9_output_ids_truthy (db : List Store) (nearby : ApiResult)
    (text : Option ApiResult) :
    (∀ st ∈ (find_and_sync_nearby_stores db nearby text).1,
        ∃ pid, st.place_id = some pid ∧ pid ≠ "")
      ∧ (∀ st ∈ (find_and_sync_nearby_stores db nearby text).2,
        ∃ pid, st.place_id = some pid ∧ pid ≠ "") := by
  cases nearby with
  | failure =>
    rw [find_and_sync_failure]
    constructor <;> (intro st hst; simp at hst)
  | success ps =>
    by_cases hps : ps = []
    · subst hps
      rw [find_and_sync_success_nil]
      constructor <;> (intro st hst; simp at hst)
    · rw [find_and_sync_success_ne_nil hps]
      constructor
      · intro st hst
        obtain ⟨p, b, hp, he⟩ := mem_syncPlaces_fst (rankStores_mem hst)
        obtain ⟨pid, hid2, hplace⟩ := syncEntry_place_id he
        exact ⟨pid, hplace, (truthyId_spec hid2).2⟩
      · intro st hst
        obtain ⟨p, hp, he⟩ := mem_syncPlaces_snd hst
        obtain ⟨pid, hid2, hplace⟩ := syncEntry_place_id he
        exact ⟨pid, hplace, (truthyId_spec hid2).2⟩

def plC9 : Place := ⟨some "pl-c9", some "Shop C9", [], [], none, none⟩

theorem c9_output_ids_truthy_witness :
    ∃ pid, (mkNewStore plC9 "pl-c9").place_id = some pid ∧ pid ≠ "" :=
  (c9_output_ids_truthy [] (ApiResult.success [plC9]) none).1
    (mkNewStore plC9 "pl-c9") (by decide)

/-! ### C6 -/

/-- C6: a successful discovery run never rewrites an existing store row
— any identifier already stored resolves to the same record afterwards
— and every row the run adds has `partner_level = 0` and an identifier
previously unseen in the database. -/
theorem c6_existing_rows_preserved (db : List Store) (nearby : ApiResult)
    (text : Option ApiResult) (res db2 : List Store)
    (h : find_and_sync_run db nearby text = Except.ok (res, db2)) :
    (∀ t ∈ db, ∀ pid : String, t.place_id = some pid →
        db2.find? (fun s => s.place_id = some pid)
          = db.find? (fun s => s.place_id = some pid))
      ∧ (∀ s ∈ db2, s ∉ db →
          s.partner_level = 0 ∧ ∀ t ∈ db, t.place_id ≠ s.place_id) := by
  have hdb2 : db2 = db ++ (find_and_sync_nearby_stores db nearby text).2 := by
    simp only [find_and_sync_run] at h
    split at h
    next hnil =>
      injection h with h
      have h2 := congrArg Prod.snd h
      rw [hnil, List.append_nil]
      exact h2.symm
    next hnil =>
      split at h
      next e heq => simp at h
      next db3 heq =>
        injection h with h
        have h2 : db3 = db2 := congrArg Prod.snd h
        simp only [add_stores] at heq
        split at heq
        · simp at heq
        · injection heq with heq
          rw [← h2, ← heq]
  constructor
  · intro t ht pid hpid
    rw [hdb2, List.find?_append]
    have hsome : (db.find? (fun s => s.place_id = some pid)).isSome :=
      List.find?_isSome.2 ⟨t, ht, by simpa using hpid⟩
    exact Option.or_of_isSome hsome
  · intro s hs hsnot
    rw [hdb2] at hs
    rcases List.mem_append.1 hs with h1 | h2
    · exact absurd h1 hsnot
    · cases nearby with
      | failure =>
        rw [find_and_sync_failure] at h2
        simp at h2
      | success ps =>
        by_cases hps : ps = []
        · subst hps
          rw [find_and_sync_success_nil] at h2
          simp at h2
        · rw [find_and_sync_success_ne_nil hps] at h2
          obtain ⟨p, hp, he⟩ := mem_syncPlaces_snd h2
          obtain ⟨pid, hid2, hcase⟩ := syncEntry_spec he
          rcases hcase with ⟨hb, _⟩ | ⟨_, hmapnone, hst⟩
          · exact absurd hb (by simp)
          · have hspid : s.place_id = some pid := by rw [hst]; rfl
            constructor
            · rw [hst]
              rfl
            · intro t ht hcontra
              have htp : t.place_id = some pid := by rw [hcontra, hspid]
              have hpfp : p ∈ promoteLandmark (landmarkOf text) ps :=
                List.mem_of_mem_take hp
              have hpid_mem : pid ∈ (promoteLandmark (landmarkOf text) ps).filterMap truthyId :=
                List.mem_filterMap.2 ⟨p, hpfp, hid2⟩
              have htex : t ∈ get_stores_by_place_ids db
                  ((promoteLandmark (landmarkOf text) ps).filterMap truthyId) := by
                unfold get_stores_by_place_ids
                refine List.mem_filter.2 ⟨ht, ?_⟩
                simp only [htp]
                simpa using hpid_mem
              have hmemf : t ∈ (get_stores_by_place_ids db
                  ((promoteLandmark (landmarkOf text) ps).filterMap truthyId)).filter
                  (fun s2 => s2.place_id = some pid) :=
                List.mem_filter.2 ⟨htex, by simpa using htp⟩
              have hne2 := List.ne_nil_of_mem hmemf
              unfold storesMap at hmapnone
              exact hne2 (List.getLast?_eq_none_iff.1 hmapnone)

def plC6 : Place := ⟨some "pl-c6", some "Shop C6", [], [], none, none⟩

theorem c6_existing_rows_preserved_witness :
    (∀ t ∈ ([] : List Store), ∀ pid : String, t.place_id = some pid →
        ([mkNewStore plC6 "pl-c6"] : List Store).find? (fun s => s.place_id = some pid)
          = ([] : List Store).find? (fun s => s.place_id = some pid))
      ∧ (∀ s ∈ ([mkNewStore plC6 "pl-c6"] : List Store), s ∉ ([] : List Store) →
          s.partner_level = 0 ∧ ∀ t ∈ ([] : List Store), t.place_id ≠ s.place_id) :=
  c6_existing_rows_preserved [] (ApiResult.success [plC6]) none
    [mkNewStore plC6 "pl-c6"] [mkNewStore plC6 "pl-c6"] rfl

/-! ### C4 -/

def lmC4 : Place :=
  ⟨some "pid-landmark-4", some "Harbor Grill", ["restaurant"], [], none, none⟩

/-- C4 counterexample: a call where the text search did return a
restaurant-typed landmark candidate, yet the returned ranked list has
no first element at all — the nearby search failed, so the early return
of store_service.py line 145 discards the landmark too, refuting
"regardless": the landmark is first only when the nearby set is
non-empty. -/
theorem c4_counterexample :
    "restaurant" ∈ lmC4.types
      ∧ (find_and_sync_nearby_stores [] ApiResult.failure
          (some (ApiResult.success [lmC4]))).1.head? = none :=
  ⟨by decide, by decide⟩

theorem rank_sync_landmark_first {ex : List Store} {qs : List Place} {lp : Place}
    {i : String} (hi : i ≠ "") (hlpid : truthyId lp = some i)
    (hq : ∀ p ∈ qs, p.id ≠ some i) :
    ∃ ls tl,
      rankStores (some i) (syncPlaces (storesMap ex) (lp :: qs)).1 = ls :: tl
        ∧ ls.place_id = some i ∧ ∀ st ∈ tl, st.place_id ≠ some i := by
  have htail : ∀ st ∈ (syncPlaces (storesMap ex) qs).1, st.place_id ≠ some i := by
    intro st hstm
    obtain ⟨p, b2, hpmem, he2⟩ := mem_syncPlaces_fst hstm
    obtain ⟨pid, hid2, hplace⟩ := syncEntry_place_id he2
    obtain ⟨hpid, hne⟩ := truthyId_spec hid2
    rw [hplace]
    intro hcon
    injection hcon with hcon
    subst hcon
    exact hq p hpmem hpid
  cases hment : storesMap ex i with
  | some st0 =>
    have hentry : syncEntry (storesMap ex) lp = some (st0, false) := by
      simp only [syncEntry, hlpid, hment]
    have hst0 : st0.place_id = some i := (storesMap_spec hment).1
    rw [syncPlaces_fst_cons hentry]
    exact ⟨st0, _, by rw [rankStores_split hi hst0 htail], hst0,
      fun st hst => htail st (mem_sortByLevelDesc.1 hst)⟩
  | none =>
    have hentry : syncEntry (storesMap ex) lp = some (mkNewStore lp i, true) := by
      simp only [syncEntry, hlpid, hment]
    have hst0 : (mkNewStore lp i).place_id = some i := rfl
    rw [syncPlaces_fst_cons hentry]
    exact ⟨mkNewStore lp i, _, by rw [rankStores_split hi hst0 htail], hst0,
      fun st hst => htail st (mem_sortByLevelDesc.1 hst)⟩

/-- C4 amended: provided the nearby search returned at least one
candidate (else the whole call returns the empty list first) and the
restaurant-typed landmark carries a non-empty identifier, the landmark
store is the first element of the ranked list — whatever its partner
level — and no later element carries its identifier (dedup). -/
theorem c4_amended_landmark_first (db : List Store) (ps rest : List Place)
    (lp : Place) (i : String) (hps : ps ≠ []) (hres : "restaurant" ∈ lp.types)
    (hid : lp.id = some i) (hi : i ≠ "") :
    ∃ ls tl,
      (find_and_sync_nearby_stores db (ApiResult.success ps)
          (some (ApiResult.success (lp :: rest)))).1 = ls :: tl
        ∧ ls.place_id = some i
        ∧ ∀ st ∈ tl, st.place_id ≠ some i := by
  rw [find_and_sync_success_ne_nil hps]
  have hlm : landmarkOf (some (ApiResult.success (lp :: rest))) = some lp := rfl
  rw [hlm]
  have hfood : isFoodPlace lp = true := by
    unfold isFoodPlace
    rw [Bool.or_eq_true]
    left
    exact decide_eq_true hres
  have hprom : promoteLandmark (some lp) ps = lp :: ps.filter (fun p => p.id ≠ lp.id) := by
    simp only [promoteLandmark]
    rw [if_pos hfood]
  have hlid : landmarkId (some lp) = some i := by
    simp only [landmarkId]
    rw [if_pos hfood, hid]
  rw [hprom, hlid]
  have htake : (lp :: ps.filter (fun p => p.id ≠ lp.id)).take 10
      = lp :: (ps.filter (fun p => p.id ≠ lp.id)).take 9 := rfl
  rw [htake]
  have hlpid : truthyId lp = some i := by
    simp only [truthyId, hid]
    rw [if_neg hi]
  have hq : ∀ p ∈ (ps.filter (fun p => p.id ≠ lp.id)).take 9, p.id ≠ some i := by
    intro p hp
    have hpF := List.mem_of_mem_take hp
    have hpne := (List.mem_filter.1 hpF).2
    simpa [hid] using hpne
  exact rank_sync_landmark_first hi hlpid hq

def plC4w : Place := ⟨some "pl-c4w", some "Shop C4w", [], [], none, none⟩

theorem c4_amended_landmark_first_witness :
    ∃ ls tl,
      (find_and_sync_nearby_stores [] (ApiResult.success [plC4w])
          (some (ApiResult.success [lmC4]))).1 = ls :: tl
        ∧ ls.place_id = some "pid-landmark-4"
        ∧ ∀ st ∈ tl, st.place_id ≠ some "pid-landmark-4" :=
  c4_amended_landmark_first [] [plC4w] [] lmC4 "pid-landmark-4"
    (by decide) (by decide) rfl (by decide)

end LinguaOrder
